import Mathlib

/-
  Verification development for the secure file-upload pipeline in
  `app/file_handler.py` (sniff_mimetype, validate_file_upload,
  secure_save_file).

  Shallow embedding conventions:
  * Python `bytes` values are `List Nat` (each element one byte).
  * Python `int` is `Int` (arbitrary-precision, signed).
  * Filesystem paths are absolute component lists (`List String`);
    `str(path)` is recovered by `pathStr`.
  * The filesystem is an association list from component paths to nodes
    (directory / regular file / symlink).  `Path.resolve` is embedded as a
    fuel-bounded symlink-following walk (`resolvePath`): the fuel models
    CPython's symlink-loop guard, which raises `RuntimeError` in strict
    mode.  Raised `OSError` subclasses are the `OSErr` values; a
    `FileValidationError` is an `FVErr` value; an exception escaping
    `secure_save_file` unhandled is `SaveErr.osError`.
  * `uuid.uuid4()` is modelled by an explicit `freshId : String` argument,
    the only nondeterministic input of `secure_save_file`.
-/

namespace FileHandler

/-- Python `bytes`: a list of byte values. -/
abbrev Bytes := List Nat

/-- The 8-byte PNG signature `b"\x89PNG\r\n\x1a\n"`. -/
def pngMagic : Bytes := [0x89, 0x50, 0x4E, 0x47, 0x0D, 0x0A, 0x1A, 0x0A]

/-- The 3-byte JPEG table entry `b"\xff\xd8\xff"`. -/
def jpegMagic : Bytes := [0xFF, 0xD8, 0xFF]

/-- The JPEG start-of-image marker `b"\xff\xd8"`. -/
def jpegSOI : Bytes := [0xFF, 0xD8]

/-- The JPEG end-of-image marker `b"\xff\xd9"`. -/
def jpegEOI : Bytes := [0xFF, 0xD9]

/-- `MAGIC_BYTES`: the signature table, in Python dict insertion order. -/
def MAGIC_BYTES : List (Bytes × String × String) :=
  [(pngMagic, ("image/png", ".png")),
   (jpegMagic, ("image/jpeg", ".jpg"))]

/-- `MAX_FILE_SIZE = 5_000_000`. -/
def MAX_FILE_SIZE : Int := 5000000

/-- Python `needle in hay` for bytes: contiguous-substring containment. -/
def containsSub (needle : Bytes) : Bytes → Bool
  | [] => needle == []
  | b :: rest => needle.isPrefixOf (b :: rest) || containsSub needle rest

/-- The `for magic, (mimetype, ext) in MAGIC_BYTES.items()` loop of
`sniff_mimetype`: first table entry whose byte-prefix matches. -/
def findMagic : List (Bytes × String × String) → Bytes → Option (String × String)
  | [], _ => none
  | (magic, res) :: table, data =>
    if magic.isPrefixOf data then some res else findMagic table data

/-- `sniff_mimetype(data)`: magic-byte MIME detection. -/
def sniff_mimetype (data : Bytes) : Option (String × String) :=
  if data = [] then
    none
  else
    match findMagic MAGIC_BYTES data with
    | some r => some r
    | none =>
      if jpegSOI.isPrefixOf data && containsSub jpegEOI data then
        some ("image/jpeg", ".jpg")
      else
        none

/-- The `FileValidationError` conditions raised by the module (each
constructor is one of the distinct short diagnostic messages). -/
inductive FVErr
  | fileTooLarge
  | fileEmpty
  | unsupportedFileType
  | uploadDirNotFound
  | invalidPath
  | pathTraversalDetected
  | symlinkInPath
  | fileWriteFailed
  deriving DecidableEq, Repr

/-- `validate_file_upload(data, max_size)`. -/
def validate_file_upload (data : Bytes) (maxSize : Int) :
    Except FVErr (String × String) :=
  if (data.length : Int) > maxSize then
    .error .fileTooLarge
  else if data.length = 0 then
    .error .fileEmpty
  else
    match sniff_mimetype data with
    | none => .error .unsupportedFileType
    | some r => .ok r

/-- `validate_file_upload` with the signature-sniffing step abstracted to a
parameter, used to express that a given control path never consults the
signature table.  `validate_file_upload = validateWith sniff_mimetype`
(see `validateWith_spec`). -/
def validateWith (sniffer : Bytes → Option (String × String))
    (data : Bytes) (maxSize : Int) : Except FVErr (String × String) :=
  if (data.length : Int) > maxSize then
    .error .fileTooLarge
  else if data.length = 0 then
    .error .fileEmpty
  else
    match sniffer data with
    | none => .error .unsupportedFileType
    | some r => .ok r

/-- An absolute filesystem path, as its list of components
(`/data/upload` is `["data", "upload"]`; the filesystem root `/` is `[]`). -/
abbrev PathC := List String

/-- `str(path)` for an absolute path. -/
def pathStr (p : PathC) : String := "/" ++ String.intercalate "/" p

/-- Python `str.startswith`, over the character data of the strings. -/
def startswith (s pre : String) : Bool := pre.data.isPrefixOf s.data

/-- A filesystem node: directory (with a flag telling whether the process
may search/traverse it), regular file, or symbolic link (absolute target). -/
inductive Node
  | dir (searchable : Bool)
  | file (content : Bytes)
  | symlink (target : PathC)
  deriving DecidableEq, Repr

/-- A filesystem snapshot: association list from paths to nodes. -/
abbrev FS := List (PathC × Node)

/-- Node stored at path `p`, if any. -/
def FS.lookup (fs : FS) (p : PathC) : Option Node :=
  (fs.find? (fun e => e.1 == p)).map Prod.snd

/-- `OSError` subclasses (and the symlink-loop `RuntimeError`) that
`Path.resolve` and `Path.write_bytes` can raise. -/
inductive OSErr
  | fileNotFound
  | permissionDenied
  | notADirectory
  | symlinkLoop
  | writeFailed
  deriving DecidableEq, Repr

/-- Result of one symlink-free pass of the resolver over the remaining
components: either a final outcome, or a restart after following a link. -/
inductive WalkRes
  | done (r : Except OSErr PathC)
  | restart (rest : PathC)
  deriving Repr

/-- One pass of path resolution: walk the remaining components on top of
the already-resolved `acc`.  Following a symlink yields `restart` (the
caller begins again from `/` with the link target prepended, charging the
loop guard).  In non-strict mode (`strict = false`), any component that
cannot be followed further stops resolution and the remaining components
are appended lexically, as `os.path.realpath(strict=False)` does; in
strict mode it is an `OSError`. -/
def walk (fs : FS) (strict : Bool) (acc : PathC) : PathC → WalkRes
  | [] => .done (.ok acc)
  | c :: rest =>
    match fs.lookup (acc ++ [c]) with
    | some (.symlink t) => .restart (t ++ rest)
    | some (.dir searchable) =>
      if searchable then
        walk fs strict (acc ++ [c]) rest
      else if rest.isEmpty then
        .done (.ok (acc ++ [c]))
      else if strict then
        .done (.error .permissionDenied)
      else
        .done (.ok (acc ++ [c] ++ rest))
    | some (.file _) =>
      if rest.isEmpty then
        .done (.ok (acc ++ [c]))
      else if strict then
        .done (.error .notADirectory)
      else
        .done (.ok (acc ++ [c] ++ rest))
    | none =>
      if strict then
        .done (.error .fileNotFound)
      else
        .done (.ok (acc ++ [c] ++ rest))

/-- Iterate `walk`, charging one unit of fuel per symlink followed;
exhausted fuel is the resolver's symlink-loop guard (`RuntimeError`). -/
def resolveFuel (fs : FS) (strict : Bool) : Nat → PathC → PathC → Except OSErr PathC
  | 0, _, _ => .error .symlinkLoop
  | fuel + 1, acc, rest =>
    match walk fs strict acc rest with
    | .done r => r
    | .restart rest2 => resolveFuel fs strict fuel [] rest2

/-- `Path.resolve(strict=...)`: resolve from `/` with the CPython symlink
guard bound. -/
def resolvePath (fs : FS) (strict : Bool) (p : PathC) : Except OSErr PathC :=
  resolveFuel fs strict 64 [] p

/-- `Path.parents` of an absolute path: every ancestor directory, nearest
first, down to the filesystem root `/` itself (`Path("/a/b/c").parents`
is `[/a/b, /a, /]`). -/
def parents (p : PathC) : List PathC :=
  (List.range p.length).map (fun k => p.take (p.length - 1 - k))

/-- `path.is_symlink()`: the node stored at the path is a symbolic link. -/
def isSymlinkAt (fs : FS) (p : PathC) : Bool :=
  match FS.lookup fs p with
  | some (.symlink _) => true
  | _ => false

/-- Step 4's containment test, exactly as coded:
`str(file_path_resolved).startswith(str(root_resolved))`. -/
def containmentCheck (filePathResolved rootResolved : PathC) : Bool :=
  startswith (pathStr filePathResolved) (pathStr rootResolved)

/-- Modelled from the spec: the component-wise containment the spec's
§4.3/§9 prescribe for step 4 (candidate nested under the root segment by
segment).  Declared only to be compared with `containmentCheck`. -/
def specComponentwiseContained (filePathResolved rootResolved : PathC) : Bool :=
  rootResolved.isPrefixOf filePathResolved && filePathResolved != rootResolved

/-- Step 5's ancestor sweep, exactly as coded: scan
`file_path_resolved.parents` for a symlink. -/
def ancestorSweep (fs : FS) (filePathResolved : PathC) : Bool :=
  (parents filePathResolved).any (fun par => isSymlinkAt fs par)

/-- `Path.write_bytes`: create/overwrite the regular file at `p`.  Fails
(`OSError`) unless the parent is a searchable directory and the target is
not an existing directory. -/
def writeBytes (fs : FS) (p : PathC) (data : Bytes) : Except OSErr FS :=
  match p with
  | [] => .error .writeFailed
  | _ :: _ =>
    match fs.lookup p.dropLast with
    | some (.dir true) =>
      match fs.lookup p with
      | some (.dir _) => .error .writeFailed
      | _ => .ok ((p, .file data) :: fs)
    | _ => .error .writeFailed

/-- The `except (FileNotFoundError, RuntimeError)` clause of step 2. -/
def caughtAtStep2 (e : OSErr) : Bool :=
  e == .fileNotFound || e == .symlinkLoop

/-- An outcome of `secure_save_file`: a raised `FileValidationError`, or
an OS-level exception escaping the function unhandled. -/
inductive SaveErr
  | fve (e : FVErr)
  | osError (e : OSErr)
  deriving DecidableEq, Repr

/-- `secure_save_file(root, data)`, with the filesystem snapshot explicit
and `uuid.uuid4()` supplied as `freshId`.  Returns the outcome paired
with the resulting filesystem. -/
def secure_save_file (fs : FS) (root : PathC) (freshId : String) (data : Bytes) :
    Except SaveErr PathC × FS :=
  -- Step 1: validate file
  match validate_file_upload data MAX_FILE_SIZE with
  | .error e => (.error (.fve e), fs)
  | .ok (_mimetype, ext) =>
    -- Step 2: resolve upload directory (strict)
    match resolvePath fs true root with
    | .error e =>
      if caughtAtStep2 e then (.error (.fve .uploadDirNotFound), fs)
      else (.error (.osError e), fs)
    | .ok rootResolved =>
      -- Steps 3-4: UUID filename `freshId ++ ext`, then resolve the
      -- candidate (non-strict); `except (RuntimeError, OSError)`
      match resolvePath fs false (rootResolved ++ [freshId ++ ext]) with
      | .error _ => (.error (.fve .invalidPath), fs)
      | .ok filePathResolved =>
        if !containmentCheck filePathResolved rootResolved then
          (.error (.fve .pathTraversalDetected), fs)
        -- Step 5: ancestor symlink sweep over `file_path_resolved.parents`
        else if ancestorSweep fs filePathResolved then
          (.error (.fve .symlinkInPath), fs)
        else
          -- Step 6: write file
          match writeBytes fs filePathResolved data with
          | .error _ => (.error (.fve .fileWriteFailed), fs)
          | .ok fs2 => (.ok filePathResolved, fs2)

/-- The write-step failure condition, singled out because the spec's
atomicity-on-failure statement excludes exactly it. -/
def isWriteFailedErr : SaveErr → Bool
  | .fve .fileWriteFailed => true
  | _ => false

/-- No nonempty prefix of `acc` (up to and including `acc` itself) is a
symbolic link. -/
def PrefixesNotSym (fs : FS) (acc : PathC) : Prop :=
  ∀ n, 0 < n → n ≤ acc.length → isSymlinkAt fs (acc.take n) = false

/-- Test fixture: an existing, searchable upload directory `/srv/up`. -/
def fs0 : FS := [(["srv"], .dir true), (["srv", "up"], .dir true)]

/-- Test fixture: the filesystem after the sample store into `fs0`. -/
def fs1 : FS := (["srv", "up", "f47ac10b.png"], .file pngMagic) :: fs0

/-- Test fixture: `/a` exists but may not be searched, `/a/b` exists. -/
def fsPerm : FS := [(["a"], .dir false), (["a", "b"], .dir true)]

/-- Test fixture: a symlink at `/data`, above the root `/data/upload`. -/
def fsSymAbove : FS := [(["data"], .symlink ["d"])]

/-! ### Helper lemmas about the resolver and the filesystem model -/

theorem validateWith_spec (data : Bytes) (maxSize : Int) :
    validate_file_upload data maxSize = validateWith sniff_mimetype data maxSize := rfl

theorem prefixesNotSym_nil (fs : FS) : PrefixesNotSym fs [] := by
  intro n hn hle
  simp at hle
  omega

theorem prefixesNotSym_snoc {fs : FS} {acc : PathC} {c : String}
    (h : PrefixesNotSym fs acc) (hc : isSymlinkAt fs (acc ++ [c]) = false) :
    PrefixesNotSym fs (acc ++ [c]) := by
  intro n hn hle
  rw [List.length_append, List.length_cons, List.length_nil] at hle
  rcases Nat.lt_or_ge n (acc.length + 1) with hlt | hge
  · rw [List.take_append_of_le_length (by omega)]
    exact h n hn (by omega)
  · have hn' : n = acc.length + 1 := by omega
    have : (acc ++ [c]).length = acc.length + 1 := by simp
    rw [hn', ← this, List.take_length]
    exact hc

theorem walk_strict_prefixesNotSym (fs : FS) :
    ∀ (rest acc r : PathC), PrefixesNotSym fs acc →
      walk fs true acc rest = .done (.ok r) → PrefixesNotSym fs r := by
  intro rest
  induction rest with
  | nil =>
    intro acc r hacc hw
    simp only [walk, WalkRes.done.injEq, Except.ok.injEq] at hw
    exact hw ▸ hacc
  | cons c rest ih =>
    intro acc r hacc hw
    simp only [walk] at hw
    cases hl : FS.lookup fs (acc ++ [c]) with
    | none => rw [hl] at hw; simp at hw
    | some node =>
      rw [hl] at hw
      cases node with
      | symlink t => simp at hw
      | file content =>
        cases rest with
        | nil =>
          simp at hw
          subst hw
          exact prefixesNotSym_snoc hacc (by simp [isSymlinkAt, hl])
        | cons d rest' => simp at hw
      | dir searchable =>
        cases searchable with
        | true =>
          simp at hw
          exact ih (acc ++ [c]) r
            (prefixesNotSym_snoc hacc (by simp [isSymlinkAt, hl])) hw
        | false =>
          cases rest with
          | nil =>
            simp at hw
            subst hw
            exact prefixesNotSym_snoc hacc (by simp [isSymlinkAt, hl])
          | cons d rest' => simp at hw

theorem resolveFuel_strict_prefixesNotSym (fs : FS) :
    ∀ (fuel : Nat) (acc rest r : PathC), PrefixesNotSym fs acc →
      resolveFuel fs true fuel acc rest = .ok r → PrefixesNotSym fs r := by
  intro fuel
  induction fuel with
  | zero => intro acc rest r _ h; simp [resolveFuel] at h
  | succ fuel ih =>
    intro acc rest r hacc h
    simp only [resolveFuel] at h
    cases hw : walk fs true acc rest with
    | done res =>
      rw [hw] at h
      have h' : res = .ok r := h
      exact walk_strict_prefixesNotSym fs rest acc r hacc
        (by rw [hw]; exact congrArg WalkRes.done h')
    | restart rest2 =>
      rw [hw] at h
      exact ih [] rest2 r (prefixesNotSym_nil fs) h

theorem resolvePath_strict_prefixesNotSym {fs : FS} {root r : PathC}
    (h : resolvePath fs true root = .ok r) : PrefixesNotSym fs r :=
  resolveFuel_strict_prefixesNotSym fs 64 [] root r (prefixesNotSym_nil fs) h

theorem walk_false_of_noSymlink (fs : FS) :
    ∀ (rest acc : PathC),
      (∀ n, n < rest.length → isSymlinkAt fs (acc ++ rest.take (n + 1)) = false) →
      walk fs false acc rest = .done (.ok (acc ++ rest)) := by
  intro rest
  induction rest with
  | nil => intro acc _; simp [walk]
  | cons c rest ih =>
    intro acc hns
    have h0 : isSymlinkAt fs (acc ++ [c]) = false := by
      have := hns 0 (by simp)
      simpa using this
    simp only [walk]
    cases hl : FS.lookup fs (acc ++ [c]) with
    | none => simp [List.append_assoc]
    | some node =>
      cases node with
      | symlink t => simp [isSymlinkAt, hl] at h0
      | file content =>
        cases rest with
        | nil => simp
        | cons d rest' => simp [List.append_assoc]
      | dir searchable =>
        cases searchable with
        | false =>
          cases rest with
          | nil => simp
          | cons d rest' => simp [List.append_assoc]
        | true =>
          have hrec := ih (acc ++ [c]) (fun n hn => by
            have := hns (n + 1) (by simpa using Nat.succ_lt_succ hn)
            simpa [List.append_assoc] using this)
          simp [hrec, List.append_assoc]

theorem resolveFuel_succ (fs : FS) (strict : Bool) (fuel : Nat) (acc rest : PathC) :
    resolveFuel fs strict (fuel + 1) acc rest =
      match walk fs strict acc rest with
      | .done r => r
      | .restart rest2 => resolveFuel fs strict fuel [] rest2 := rfl

theorem resolvePath_false_fixed (fs : FS) (q : PathC)
    (h : ∀ n, n < q.length → isSymlinkAt fs (q.take (n + 1)) = false) :
    resolvePath fs false q = .ok q := by
  have hw := walk_false_of_noSymlink fs q [] (by simpa using h)
  show resolveFuel fs false (63 + 1) [] q = .ok q
  rw [resolveFuel_succ, hw]
  simp

/-- Resolving `rootRes / f` when no nonempty prefix of `rootRes` is a
symlink and no entry exists at the candidate returns the candidate
unchanged. -/
theorem resolve_candidate (fs : FS) (rootRes : PathC) (f : String)
    (hnp : PrefixesNotSym fs rootRes)
    (hfresh : FS.lookup fs (rootRes ++ [f]) = none) :
    resolvePath fs false (rootRes ++ [f]) = .ok (rootRes ++ [f]) := by
  apply resolvePath_false_fixed
  intro n hn
  rw [List.length_append, List.length_cons, List.length_nil] at hn
  rcases Nat.lt_or_ge n rootRes.length with hlt | hge
  · rw [List.take_append_of_le_length (by omega)]
    exact hnp (n + 1) (by omega) (by omega)
  · have hn' : n + 1 = (rootRes ++ [f]).length := by simp; omega
    rw [hn', List.take_length]
    simp [isSymlinkAt, hfresh]

theorem lookup_cons_self (fs : FS) (p : PathC) (node : Node) :
    FS.lookup ((p, node) :: fs) p = some node := by
  simp [FS.lookup, List.find?]

theorem lookup_cons_ne (fs : FS) (p q : PathC) (node : Node) (h : q ≠ p) :
    FS.lookup ((p, node) :: fs) q = FS.lookup fs q := by
  have hb : (p == q) = false := by
    simp only [beq_eq_false_iff_ne]
    exact fun hh => h hh.symm
  simp [FS.lookup, List.find?, hb]

theorem writeBytes_ok {fs : FS} {p : PathC} {data : Bytes} {fs2 : FS}
    (h : writeBytes fs p data = .ok fs2) : fs2 = (p, .file data) :: fs := by
  unfold writeBytes at h
  split at h
  · simp at h
  · split at h
    · split at h
      · simp at h
      · simp only [Except.ok.injEq] at h
        exact h.symm
    · simp at h

/-- The walked list `Path.parents` holds exactly the strict prefixes of
the path: every ancestor directory up to the filesystem root `/`. -/
theorem mem_parents_iff (p q : PathC) :
    q ∈ parents p ↔ (q <+: p ∧ q ≠ p) := by
  unfold parents
  simp only [List.mem_map, List.mem_range]
  constructor
  · rintro ⟨k, hk, rfl⟩
    refine ⟨ List.take_prefix _ _, ?_⟩
    intro hcontra
    have hlen := congrArg List.length hcontra
    rw [List.length_take] at hlen
    omega
  · rintro ⟨hpre, hne⟩
    have hql : q.length ≤ p.length := hpre.length_le
    have htake : q = p.take q.length := List.prefix_iff_eq_take.mp hpre
    have hlt : q.length < p.length := by
      rcases Nat.lt_or_ge q.length p.length with h | h
      · exact h
      · exfalso
        apply hne
        rw [htake]
        have : q.length = p.length := by omega
        rw [this, List.take_length]
    have harith : p.length - 1 - (p.length - 1 - q.length) = q.length := by omega
    exact ⟨p.length - 1 - q.length, by omega, by rw [harith, ← htake]⟩

/-! ### Claim theorems -/

/-- Claim C1: the claim says the path-safety containment test of
`secure_save_file` compares canonicalized paths component-wise, rejecting
a sibling directory whose name merely starts with the root's name.  The
code's step 4 is `containmentCheck` — a raw `str(...).startswith(str(...))`
test — and it accepts the canonicalized sibling candidate
`/data/upload-other/f.png` against the canonicalized root `/data/upload`,
which component-wise containment (`specComponentwiseContained`) rejects:
the code contradicts the claimed (and spec-prescribed) behavior. -/
theorem c1_containment_check_is_raw_string_prefix :
    containmentCheck ["data", "upload-other", "f.png"] ["data", "upload"] = true ∧
    specComponentwiseContained ["data", "upload-other", "f.png"] ["data", "upload"] = false := by
  exact ⟨rfl, rfl⟩

/-- Claim C4 (counterexample): the claim says the ancestor symlink sweep
walks only the directories between the canonicalized candidate and the
canonicalized root, and that directories above the root cannot trigger
`symlink_in_path`.  In the code the sweep iterates all of
`file_path_resolved.parents`: for candidate `/data/upload/f.png` under
root `/data/upload` that walked list is `[/data/upload, /data, /]`, which
includes `/data` and `/` — both strictly above the root — and a symlink
placed at `/data` makes the sweep report a symlink. -/
theorem c4_sweep_includes_dirs_above_root :
    parents ["data", "upload", "f.png"] = [["data", "upload"], ["data"], []] ∧
    specComponentwiseContained ["data"] ["data", "upload"] = false ∧
    specComponentwiseContained [] ["data", "upload"] = false ∧
    ancestorSweep fsSymAbove ["data", "upload", "f.png"] = true := by
  exact ⟨rfl, rfl, rfl, rfl⟩

/-- Claim C4 (amended): the ancestor symlink sweep of `secure_save_file`
walks every strict ancestor of the canonicalized candidate path —
exclusive of the final file itself, but all the way up to the filesystem
root `/`, including directories above the canonicalized upload root — and
reports a symlink exactly when one of those ancestors is a symlink. -/
theorem c4_sweep_walks_every_ancestor (fs : FS) (p : PathC) :
    (∀ q, q ∈ parents p ↔ (q <+: p ∧ q ≠ p)) ∧
    (ancestorSweep fs p = true ↔ ∃ q, (q <+: p ∧ q ≠ p) ∧ isSymlinkAt fs q = true) := by
  refine ⟨fun q => mem_parents_iff p q, ?_⟩
  simp only [ancestorSweep, List.any_eq_true, mem_parents_iff]

/-- Claim C5 (counterexample): the claim quantifies over every
`max_size`, but the size check runs first with a strict `>` against the
raw caller-supplied bound, so with `max_size = -1` the empty buffer
fails with `file_too_large`, not `file_empty`. -/
theorem c5_negative_bound_preempts_file_empty :
    validate_file_upload [] (-1) = .error .fileTooLarge ∧
    FVErr.fileTooLarge ≠ FVErr.fileEmpty := by
  exact ⟨rfl, by decide⟩

/-- Claim C5 (amended): for every `max_size ≥ 0` (any bound at which the
empty buffer survives the size test), `validate` on the empty buffer
fails with `file_empty`, and this happens whatever the signature sniffer
would say (the signature table is never consulted); the size check runs
even earlier, as the very first test, again independently of the
sniffer — which is exactly why a negative `max_size` yields
`file_too_large` instead. -/
theorem c5_empty_buffer_fails_file_empty (m : Int) (hm : 0 ≤ m) :
    validate_file_upload [] m = .error .fileEmpty ∧
    (∀ sniffer, validateWith sniffer [] m = .error .fileEmpty) ∧
    (∀ sniffer (data : Bytes), (data.length : Int) > m →
      validateWith sniffer data m = .error .fileTooLarge) := by
  have h1 : ¬ ((List.length ([] : Bytes) : Int) > m) := by
    simp only [List.length_nil]
    omega
  refine ⟨?_, fun sniffer => ?_, fun sniffer data hlen => ?_⟩
  · unfold validate_file_upload
    rw [if_neg h1]
    rfl
  · unfold validateWith
    rw [if_neg h1]
    rfl
  · unfold validateWith
    rw [if_pos hlen]

/-- Claim C5 witness: the amended statement at the concrete bound `0`. -/
theorem c5_empty_buffer_fails_file_empty_witness :
    (0 : Int) ≤ 0 ∧ validate_file_upload [] 0 = .error .fileEmpty :=
  ⟨by decide, (c5_empty_buffer_fails_file_empty 0 (by decide)).1⟩

/-- Claim C6: the size bound is a strict inequality at the boundary: any
buffer longer than `max_size` fails with `file_too_large`; a buffer of
exactly `max_size` bytes passes the size check and, when it carries a
registered signature, validates end to end; the same buffer extended by
one byte fails with `file_too_large`. -/
theorem c6_size_boundary (b : Bytes) (m : Int) :
    ((b.length : Int) > m → validate_file_upload b m = .error .fileTooLarge) ∧
    ((b.length : Int) = m → ∀ r, sniff_mimetype b = some r →
      validate_file_upload b m = .ok r) ∧
    ((b.length : Int) = m → ∀ x, validate_file_upload (b ++ [x]) m = .error .fileTooLarge) := by
  refine ⟨fun h => ?_, fun hlen r hsniff => ?_, fun hlen x => ?_⟩
  · unfold validate_file_upload
    rw [if_pos h]
  · have hb : b ≠ [] := by
      intro hb
      subst hb
      simp [sniff_mimetype] at hsniff
    unfold validate_file_upload
    rw [if_neg (by omega)]
    rw [if_neg (fun h0 => hb (List.length_eq_zero.mp h0))]
    rw [hsniff]
  · unfold validate_file_upload
    rw [if_pos (by simp only [List.length_append, List.length_cons, List.length_nil]; push_cast; omega)]

/-- Claim C6 witness: the boundary at `max_size = 8` with the 8-byte PNG
signature buffer. -/
theorem c6_size_boundary_witness :
    validate_file_upload (pngMagic ++ [0, 0]) 8 = .error .fileTooLarge ∧
    validate_file_upload pngMagic 8 = .ok ("image/png", ".png") ∧
    validate_file_upload (pngMagic ++ [0]) 8 = .error .fileTooLarge :=
  ⟨(c6_size_boundary (pngMagic ++ [0, 0]) 8).1 (by decide),
   (c6_size_boundary pngMagic 8).2.1 (by decide) ("image/png", ".png") rfl,
   (c6_size_boundary pngMagic 8).2.2 (by decide) 0⟩

/-- Claim C10: a buffer whose first three bytes are `FF D8 FF` is
classified as JPEG by the table's 3-byte prefix rule even when the
end-of-image marker `FF D9` is absent; when the third byte is not `FF`,
the secondary rule decides, and then the presence of `FF D9` somewhere in
the buffer is exactly what is required. -/
theorem c10_jpeg_prefix_rule :
    (∀ rest : Bytes, sniff_mimetype (0xFF :: 0xD8 :: 0xFF :: rest) = some ("image/jpeg", ".jpg")) ∧
    (∀ (x : Nat) (rest : Bytes), x ≠ 0xFF →
      sniff_mimetype (0xFF :: 0xD8 :: x :: rest) =
        if containsSub jpegEOI (0xFF :: 0xD8 :: x :: rest) then
          some ("image/jpeg", ".jpg")
        else
          none) := by
  constructor
  · intro rest
    simp [sniff_mimetype, findMagic, MAGIC_BYTES, pngMagic, jpegMagic, List.isPrefixOf]
  · intro x rest hx
    have hxb : (0xFF == x) = false := by
      simp only [beq_eq_false_iff_ne]
      exact fun h => hx h.symm
    simp [sniff_mimetype, findMagic, MAGIC_BYTES, pngMagic, jpegMagic, jpegSOI,
      List.isPrefixOf, hxb]

/-- Claim C10 witness: `FF D8 FF` alone is JPEG; `FF D8 00` (third byte
not `FF`, no end marker) is rejected. -/
theorem c10_jpeg_prefix_rule_witness :
    sniff_mimetype [0xFF, 0xD8, 0xFF] = some ("image/jpeg", ".jpg") ∧
    sniff_mimetype [0xFF, 0xD8, 0x00] = none :=
  ⟨c10_jpeg_prefix_rule.1 [],
   by
    have h := c10_jpeg_prefix_rule.2 0x00 [] (by decide)
    simpa using h⟩

/-- Claim C7: every buffer starting with the 8-byte PNG signature sniffs
as `(image/png, .png)`; every buffer starting with the JPEG start-of-image
marker and containing the end-of-image marker anywhere sniffs as
`(image/jpeg, .jpg)`; the empty buffer and any buffer matching no rule
sniff as no match, and a no-match buffer that reaches the signature step
of `validate` (nonempty, within the size bound) fails with
`unsupported_file_type`. -/
theorem c7_sniff_classification :
    (∀ b : Bytes, pngMagic.isPrefixOf b = true →
      sniff_mimetype b = some ("image/png", ".png")) ∧
    (∀ b : Bytes, jpegSOI.isPrefixOf b = true → containsSub jpegEOI b = true →
      sniff_mimetype b = some ("image/jpeg", ".jpg")) ∧
    sniff_mimetype [] = none ∧
    (∀ b : Bytes, pngMagic.isPrefixOf b = false → jpegMagic.isPrefixOf b = false →
      (jpegSOI.isPrefixOf b && containsSub jpegEOI b) = false →
      sniff_mimetype b = none) ∧
    (∀ (b : Bytes) (m : Int), b ≠ [] → ¬ ((b.length : Int) > m) →
      sniff_mimetype b = none →
      validate_file_upload b m = .error .unsupportedFileType) := by
  refine ⟨?_, ?_, rfl, ?_, ?_⟩
  · intro b hpre
    rw [ List.isPrefixOf_iff_prefix] at hpre
    obtain ⟨t, rfl⟩ := hpre
    simp [sniff_mimetype, findMagic, MAGIC_BYTES, pngMagic, List.isPrefixOf]
  · intro b hSOI hEOI
    rw [ List.isPrefixOf_iff_prefix] at hSOI
    obtain ⟨t, rfl⟩ := hSOI
    simp only [jpegSOI, List.cons_append, List.nil_append] at hEOI ⊢
    cases t with
    | nil => simp [jpegEOI, containsSub, List.isPrefixOf] at hEOI
    | cons x t' =>
      by_cases hx : x = 0xFF
      · subst hx
        simp [sniff_mimetype, findMagic, MAGIC_BYTES, pngMagic, jpegMagic, List.isPrefixOf]
      · have hxb : (0xFF == x) = false := by
          simp only [beq_eq_false_iff_ne]
          exact fun h => hx h.symm
        simp [sniff_mimetype, findMagic, MAGIC_BYTES, pngMagic, jpegMagic, jpegSOI,
          List.isPrefixOf, hxb, hEOI]
  · intro b h1 h2 h3
    by_cases hb : b = []
    · subst hb
      rfl
    · simp [sniff_mimetype, findMagic, MAGIC_BYTES, hb, h1, h2, h3]
  · intro b m hb hlen hnone
    unfold validate_file_upload
    rw [if_neg hlen]
    rw [if_neg (fun h0 => hb (List.length_eq_zero.mp h0))]
    rw [hnone]

/-- Claim C7 witness: the classification at concrete buffers — the bare
PNG signature, a JPEG with start and end markers, the empty buffer, the
single byte `A`, and `validate` of `A` at bound 100. -/
theorem c7_sniff_classification_witness :
    sniff_mimetype pngMagic = some ("image/png", ".png") ∧
    sniff_mimetype [0xFF, 0xD8, 0xE0, 0x00, 0xFF, 0xD9] = some ("image/jpeg", ".jpg") ∧
    sniff_mimetype [] = none ∧
    sniff_mimetype [0x41] = none ∧
    validate_file_upload [0x41] 100 = .error .unsupportedFileType :=
  ⟨c7_sniff_classification.1 pngMagic (by decide),
   c7_sniff_classification.2.1 [0xFF, 0xD8, 0xE0, 0x00, 0xFF, 0xD9] (by decide) (by decide),
   c7_sniff_classification.2.2.1,
   c7_sniff_classification.2.2.2.1 [0x41] (by decide) (by decide) (by decide),
   c7_sniff_classification.2.2.2.2 [0x41] 100 (by decide) (by decide) rfl⟩

/-- Claim C3 (counterexample): the claim says every canonicalization
failure of the root — including a permission error — is converted to the
`upload_dir_not_found` `FileValidationError`, never an unhandled OS
exception.  The code's `except` clause at step 2 catches only
`FileNotFoundError` and `RuntimeError`, so a permission failure while
resolving the root (here `/a` exists but is not searchable, root
`/a/b`) escapes `secure_save_file` as an unhandled OS exception. -/
theorem c3_permission_error_escapes :
    secure_save_file fsPerm ["a", "b"] "x" pngMagic
      = (.error (.osError .permissionDenied), fsPerm) ∧
    SaveErr.osError .permissionDenied ≠ .fve .uploadDirNotFound := by
  exact ⟨rfl, by decide⟩

/-- Claim C3 (amended): once validation has passed, a root whose strict
canonicalization fails with non-existence (including a broken symlink
chain, which surfaces as file-not-found) or with the resolver's
symlink-loop `RuntimeError` makes `secure_save_file` fail with the named
condition `upload_dir_not_found` and leaves the filesystem unchanged; any
other OS-level resolution failure (such as a permission error) also
leaves the filesystem unchanged but propagates as an unhandled OS
exception rather than a `FileValidationError`. -/
theorem c3_upload_dir_not_found (fs : FS) (root : PathC) (freshId m ext : String)
    (data : Bytes) (e : OSErr)
    (hvalid : validate_file_upload data MAX_FILE_SIZE = .ok (m, ext))
    (hroot : resolvePath fs true root = .error e) :
    secure_save_file fs root freshId data =
      (if caughtAtStep2 e then (.error (.fve .uploadDirNotFound), fs)
       else (.error (.osError e), fs)) := by
  unfold secure_save_file
  rw [hvalid, hroot]

/-- Claim C3 witness: the amended statement at the nonexistent root
`/nope` over the empty filesystem, where resolution fails with
file-not-found and the call returns `upload_dir_not_found`. -/
theorem c3_upload_dir_not_found_witness :
    validate_file_upload pngMagic MAX_FILE_SIZE = .ok ("image/png", ".png") ∧
    resolvePath [] true ["nope"] = .error .fileNotFound ∧
    secure_save_file [] ["nope"] "x" pngMagic = (.error (.fve .uploadDirNotFound), []) :=
  ⟨rfl, rfl, by
    have h := c3_upload_dir_not_found [] ["nope"] "x" "image/png" ".png" pngMagic
      .fileNotFound rfl rfl
    simpa using h⟩

/-- Claim C9: whenever `secure_save_file` fails with any error other than
the write-step failure itself, it returns with no side effect: the
filesystem is exactly what it was before the call. -/
theorem c9_no_side_effect_on_failure (fs : FS) (root : PathC) (freshId : String)
    (data : Bytes) (e : SaveErr) (fs2 : FS)
    (herr : secure_save_file fs root freshId data = (.error e, fs2))
    (_hnw : isWriteFailedErr e = false) :
    fs2 = fs := by
  unfold secure_save_file at herr
  repeat' split at herr
  all_goals
    first
    | exact (congrArg Prod.snd herr).symm
    | (have h := congrArg Prod.fst herr; simp at h)

/-- Claim C9 witness: the empty buffer fails validation with
`file_empty` and the (empty) filesystem is unchanged. -/
theorem c9_no_side_effect_on_failure_witness :
    secure_save_file [] ["r"] "x" [] = (.error (.fve .fileEmpty), []) ∧
    isWriteFailedErr (.fve .fileEmpty) = false ∧
    ([] : FS) = [] :=
  ⟨rfl, rfl, c9_no_side_effect_on_failure [] ["r"] "x" [] (.fve .fileEmpty) [] rfl rfl⟩

/-- Claim C8: round-trip — on any successful call the bytes stored at the
returned path are the input buffer itself, byte-for-byte (hence of equal
length; the recorded length in the success log is `len(data)` verbatim). -/
theorem c8_round_trip (fs : FS) (root : PathC) (freshId : String)
    (data : Bytes) (p : PathC) (fs2 : FS)
    (hok : secure_save_file fs root freshId data = (.ok p, fs2)) :
    FS.lookup fs2 p = some (.file data) := by
  unfold secure_save_file at hok
  repeat' split at hok
  all_goals
    try (solve | (have h := congrArg Prod.fst hok; simp at h))
  rename_i fs3 heqw
  have hp : Except.ok _ = (Except.ok p : Except SaveErr PathC) := congrArg Prod.fst hok
  have hfs : fs3 = fs2 := congrArg Prod.snd hok
  simp only [Except.ok.injEq] at hp
  rw [← hfs, writeBytes_ok heqw, ← hp]
  exact lookup_cons_self fs _ (.file data)

/-- Claim C8 witness: the sample store into `/srv/up` reads back the PNG
buffer byte-for-byte. -/
theorem c8_round_trip_witness :
    secure_save_file fs0 ["srv", "up"] "f47ac10b" pngMagic
      = (.ok ["srv", "up", "f47ac10b.png"], fs1) ∧
    FS.lookup fs1 ["srv", "up", "f47ac10b.png"] = some (.file pngMagic) :=
  ⟨rfl,
   c8_round_trip fs0 ["srv", "up"] "f47ac10b" pngMagic
     ["srv", "up", "f47ac10b.png"] fs1 rfl⟩

/-- Claim C2: a successful `secure_save_file` call (with the freshly
drawn identifier genuinely fresh — no entry of that name exists under the
resolved root, which is what the spec's structurally-enforced unique
randomness provides) returns exactly the canonicalized root extended by
the single component `freshId ++ ext`: a component-wise descendant
directly under the root, holding the input bytes as a regular file, with
every other path untouched.  The returned path is the output of the
write-time path-safety resolution (`resolvePath`), not a string
convention. -/
theorem c2_success_stored_under_root (fs : FS) (root : PathC)
    (freshId m ext : String) (data : Bytes) (rootRes p : PathC) (fs2 : FS)
    (hvalid : validate_file_upload data MAX_FILE_SIZE = .ok (m, ext))
    (hroot : resolvePath fs true root = .ok rootRes)
    (hfresh : FS.lookup fs (rootRes ++ [freshId ++ ext]) = none)
    (hok : secure_save_file fs root freshId data = (.ok p, fs2)) :
    p = rootRes ++ [freshId ++ ext] ∧
    p.dropLast = rootRes ∧
    specComponentwiseContained p rootRes = true ∧
    FS.lookup fs2 p = some (.file data) ∧
    ∀ q, q ≠ p → FS.lookup fs2 q = FS.lookup fs q := by
  have hnp := resolvePath_strict_prefixesNotSym hroot
  have hcand := resolve_candidate fs rootRes (freshId ++ ext) hnp hfresh
  unfold secure_save_file at hok
  rw [hvalid] at hok
  simp only [] at hok
  rw [hroot] at hok
  simp only [] at hok
  rw [hcand] at hok
  simp only [] at hok
  split at hok
  · simp at hok
  · split at hok
    · simp at hok
    · split at hok
      · simp at hok
      · rename_i fs3 heqw
        simp only [Prod.mk.injEq, Except.ok.injEq] at hok
        obtain ⟨hp, hfs⟩ := hok
        subst hp
        subst hfs
        refine ⟨rfl, by simp, ?_, ?_, ?_⟩
        · simp only [specComponentwiseContained, Bool.and_eq_true,
            List.isPrefixOf_iff_prefix, bne_iff_ne]
          refine ⟨List.prefix_append rootRes [freshId ++ ext], ?_⟩
          intro hcontra
          have := congrArg List.length hcontra
          simp at this
        · rw [writeBytes_ok heqw]
          exact lookup_cons_self fs _ (.file data)
        · intro q hq
          rw [writeBytes_ok heqw]
          exact lookup_cons_ne fs _ q _ hq

/-- Claim C2 witness: the sample store into `/srv/up` with identifier
`f47ac10b` lands at `/srv/up/f47ac10b.png`, directly under the root. -/
theorem c2_success_stored_under_root_witness :
    validate_file_upload pngMagic MAX_FILE_SIZE = .ok ("image/png", ".png") ∧
    resolvePath fs0 true ["srv", "up"] = .ok ["srv", "up"] ∧
    FS.lookup fs0 (["srv", "up"] ++ ["f47ac10b" ++ ".png"]) = none ∧
    secure_save_file fs0 ["srv", "up"] "f47ac10b" pngMagic
      = (.ok ["srv", "up", "f47ac10b.png"], fs1) ∧
    (["srv", "up", "f47ac10b.png"] : PathC) = ["srv", "up"] ++ ["f47ac10b" ++ ".png"] ∧
    (["srv", "up", "f47ac10b.png"] : PathC).dropLast = ["srv", "up"] ∧
    specComponentwiseContained ["srv", "up", "f47ac10b.png"] ["srv", "up"] = true ∧
    FS.lookup fs1 ["srv", "up", "f47ac10b.png"] = some (.file pngMagic) :=
  have H := c2_success_stored_under_root fs0 ["srv", "up"] "f47ac10b" "image/png" ".png"
    pngMagic ["srv", "up"] ["srv", "up", "f47ac10b.png"] fs1 rfl rfl rfl rfl
  ⟨rfl, rfl, rfl, rfl, H.1, H.2.1, H.2.2.1, H.2.2.2.1⟩

end FileHandler
